import Mathlib

/-!
Verification of the SlewRateLimiter Arduino library (SlewRateLimiter.h /
SlewRateLimiter.cpp) against its natural-language specification.

Modelling conventions:
* C++ `int` is modelled as the unbounded integer `Int`.  The library is
  documented as targeting small sensor-range values (roughly plus or minus
  10^4) where 32-bit arithmetic never overflows, and signed overflow is
  undefined behaviour in C++, so the idealized integer semantics is the
  defined behaviour of the source.
* `x << e` on a signed int is modelled as `x * 2 ^ e`.
* `x >> k` on a signed int is an arithmetic right shift, which rounds the
  quotient toward negative infinity; it is modelled as `Int.fdiv x (2 ^ k)`
  (floor division).
* `/` on signed ints in C++ truncates toward zero; it is modelled as
  `Int.tdiv`.
* `SmoothingExponent` is an enum with underlying values 0..9; it is modelled
  as `Nat` (the enum values are the only ones a caller can produce, and no
  claim depends on the upper bound).
-/

/-- State of a `SlewRateLimiter` instance: the private data members of the
C++ class. -/
structure SlewRateLimiter where
  lastValue : Int
  emaValue : Int
  isFirstCall : Bool
  currentExponent : Nat
  rateLimit : Int
  hysteresisBand : Int
  adaptiveSlopeInternal : Int
  deriving Repr, DecidableEq

namespace SlewRateLimiter

/-- `SlewRateLimiter::updateEMA`:
`((newValue << smoothingExponent) + (currentEMA << 10) - (currentEMA << smoothingExponent)) >> 10`. -/
def updateEMA (newValue currentEMA : Int) (smoothingExponent : Nat) : Int :=
  Int.fdiv (newValue * 2 ^ smoothingExponent + currentEMA * 1024
    - currentEMA * 2 ^ smoothingExponent) 1024

/-- `SlewRateLimiter::setAdaptiveSlope`: `adaptiveSlopeInternal = (slope * 128 + 50) / 100`
(C++ division truncates toward zero). -/
def setAdaptiveSlope (s : SlewRateLimiter) (slope : Int) : SlewRateLimiter :=
  { s with adaptiveSlopeInternal := Int.tdiv (slope * 128 + 50) 100 }

/-- The C++ constructor: member-initializes
`lastValue(0), emaValue(0), isFirstCall(true), currentExponent(exponent),
rateLimit(rate), hysteresisBand(hystBand), adaptiveSlopeInternal(0)`
and then calls `setAdaptiveSlope(slope)`. -/
def construct (exponent : Nat) (rate hystBand slope : Int) : SlewRateLimiter :=
  setAdaptiveSlope
    { lastValue := 0
      emaValue := 0
      isFirstCall := true
      currentExponent := exponent
      rateLimit := rate
      hysteresisBand := hystBand
      adaptiveSlopeInternal := 0 } slope

/-- The allowed change computed inside `SlewRateLimiter::processValue`:
`allowedChange = rateLimit`, then
`if (adaptiveSlopeInternal != 0) allowedChange += (abs(delta) * adaptiveSlopeInternal) >> 7`. -/
def allowedChangeOf (s : SlewRateLimiter) (delta : Int) : Int :=
  if s.adaptiveSlopeInternal ≠ 0 then
    s.rateLimit + Int.fdiv (|delta| * s.adaptiveSlopeInternal) 128
  else
    s.rateLimit

/-- The rate-limiting step of `SlewRateLimiter::processValue`: the value of
`lastValue` after the `if (delta > allowedChange) ... else if ... else ...`
cascade, before the hysteresis check. -/
def steppedValue (s : SlewRateLimiter) (currentValue : Int) : Int :=
  let delta := currentValue - s.lastValue
  let allowedChange := allowedChangeOf s delta
  if delta > allowedChange then s.lastValue + allowedChange
  else if delta < -allowedChange then s.lastValue - allowedChange
  else currentValue

/-- `SlewRateLimiter::processValue`: returns the produced output together
with the successor state. -/
def processValue (s : SlewRateLimiter) (currentValue : Int) :
    Int × SlewRateLimiter :=
  if s.isFirstCall then
    (currentValue,
      { s with lastValue := currentValue, emaValue := currentValue,
               isFirstCall := false })
  else
    let newEma := updateEMA currentValue s.emaValue s.currentExponent
    let stepped := steppedValue s currentValue
    let final :=
      if |currentValue - stepped| ≤ s.hysteresisBand then currentValue
      else stepped
    (final, { s with emaValue := newEma, lastValue := final })

/-- `SlewRateLimiter::setRateLimit`: `rateLimit = limit`. -/
def setRateLimit (s : SlewRateLimiter) (limit : Int) : SlewRateLimiter :=
  { s with rateLimit := limit }

/-- `SlewRateLimiter::setHysteresisBand`: `hysteresisBand = band`. -/
def setHysteresisBand (s : SlewRateLimiter) (band : Int) : SlewRateLimiter :=
  { s with hysteresisBand := band }

/-- `SlewRateLimiter::setSmoothingExponent`: `currentExponent = exponent`. -/
def setSmoothingExponent (s : SlewRateLimiter) (exponent : Nat) :
    SlewRateLimiter :=
  { s with currentExponent := exponent }

/-- `SlewRateLimiter::reset`: `isFirstCall = true; lastValue = 0; emaValue = 0`. -/
def reset (s : SlewRateLimiter) : SlewRateLimiter :=
  { s with isFirstCall := true, lastValue := 0, emaValue := 0 }

/-- Feed a list of inputs through `processValue`, one call per element,
collecting the outputs. -/
def processSeq (s : SlewRateLimiter) : List Int → List Int
  | [] => []
  | x :: xs =>
    let r := processValue s x
    r.1 :: processSeq r.2 xs

end SlewRateLimiter

open SlewRateLimiter

/-- A concrete initialized state used to instantiate hypotheses: the result
of one `processValue 0` call on a default-configured fresh instance
(`lastValue = emaValue = 0`, `rateLimit = 5`, `hysteresisBand = 2`,
`adaptiveSlopeInternal = 0`, not a first call any more). -/
def sInit : SlewRateLimiter := (processValue (construct 2 5 2 0) 0).2

/-- After any `processValue` call, the stored `lastValue` is the returned
output, `isFirstCall` is cleared, and the four configuration fields are
unchanged. -/
theorem processValue_snd (s : SlewRateLimiter) (x : Int) :
    (processValue s x).2.lastValue = (processValue s x).1 ∧
    (processValue s x).2.isFirstCall = false ∧
    (processValue s x).2.currentExponent = s.currentExponent ∧
    (processValue s x).2.rateLimit = s.rateLimit ∧
    (processValue s x).2.hysteresisBand = s.hysteresisBand ∧
    (processValue s x).2.adaptiveSlopeInternal = s.adaptiveSlopeInternal := by
  unfold processValue
  split <;> simp_all

/-- One non-first call in fixed mode with a zero hysteresis band moves the
output by at most `rateLimit`, exactly `rateLimit` when the gap is at least
`rateLimit`. -/
theorem fixed_step_bound (t : SlewRateLimiter) (x : Int)
    (h0 : t.isFirstCall = false) (hA : t.adaptiveSlopeInternal = 0)
    (hH : t.hysteresisBand = 0) (hR : 0 ≤ t.rateLimit) :
    |(processValue t x).1 - t.lastValue| ≤ t.rateLimit ∧
    (t.rateLimit ≤ |x - t.lastValue| →
      |(processValue t x).1 - t.lastValue| = t.rateLimit) := by
  simp only [processValue, steppedValue, allowedChangeOf, h0, hA, hH,
    Bool.false_eq_true, if_false, ne_eq, not_true_eq_false, ite_false]
  split_ifs <;> simp only [Int.abs_eq_natAbs] at * <;> omega

/-- C1: in fixed mode with `rateLimit = 5`, `hysteresisBand = 2`,
`adaptiveSlopePercent = 0`, a fresh instance fed `[0, 20, 20, 20]` produces
`[0, 5, 10, 15]`: each non-first call steps by 5 and the residual gap never
falls inside the hysteresis band, so no call snaps to 20. -/
theorem fixed_trace : processSeq (construct 2 5 2 0) [0, 20, 20, 20]
    = [0, 5, 10, 15] := by
  decide

/-- C1 counterexample: the claimed output sequence `[0, 5, 10, 20]` is not
what the code produces on `[0, 20, 20, 20]` (the fourth call returns 15). -/
theorem fixed_trace_claim_cx : processSeq (construct 2 5 2 0) [0, 20, 20, 20]
    ≠ [0, 5, 10, 20] := by
  decide

/-- C2 (amended): on every non-first call the new EMA state equals
`(input * 2^shift + emaEstimate * 1024 - emaEstimate * 2^shift)` divided by
1024 with FLOOR division (the arithmetic right shift `>> 10`), not
truncation toward zero. -/
theorem ema_update_floor (s : SlewRateLimiter) (x : Int)
    (h : s.isFirstCall = false) :
    (processValue s x).2.emaValue =
      Int.fdiv (x * 2 ^ s.currentExponent + s.emaValue * 1024
        - s.emaValue * 2 ^ s.currentExponent) 1024 := by
  simp [processValue, updateEMA, h]

/-- C2 witness: the floor-division EMA formula evaluated at a concrete
initialized state and input. -/
theorem ema_update_floor_witness :
    (processValue sInit 7).2.emaValue =
      Int.fdiv (7 * 2 ^ sInit.currentExponent + sInit.emaValue * 1024
        - sInit.emaValue * 2 ^ sInit.currentExponent) 1024 :=
  ema_update_floor sInit 7 (by decide)

/-- C2 counterexample: with smoothing exponent 0 and EMA state 0, input `-1`
yields a new EMA of `-1` (arithmetic shift rounds toward negative infinity),
whereas division truncating toward zero would give 0. -/
theorem ema_truncation_cx :
    (processValue (processValue (construct 0 5 2 0) 0).2 (-1)).2.emaValue ≠
      Int.tdiv ((-1) * 2 ^ 0 + 0 * 1024 - 0 * 2 ^ 0) 1024 := by
  decide

/-- C3: for any input `x`, the first `processValue x` call on a freshly
constructed or just-reset instance returns `x` and leaves
`lastValue = emaValue = x` with `isFirstCall` cleared (the instance marked
initialized). -/
theorem first_call_passthrough (e : Nat) (r hb sl x : Int)
    (s : SlewRateLimiter) :
    ((processValue (construct e r hb sl) x).1 = x ∧
     (processValue (construct e r hb sl) x).2.lastValue = x ∧
     (processValue (construct e r hb sl) x).2.emaValue = x ∧
     (processValue (construct e r hb sl) x).2.isFirstCall = false) ∧
    ((processValue (reset s) x).1 = x ∧
     (processValue (reset s) x).2.lastValue = x ∧
     (processValue (reset s) x).2.emaValue = x ∧
     (processValue (reset s) x).2.isFirstCall = false) := by
  simp [processValue, construct, reset, setAdaptiveSlope]

/-- C4: with a zero adaptive slope and a zero hysteresis band, any two
consecutive `processValue` calls with inputs `x0` then `x1` satisfy
`|output1 - output0| <= rateLimit`, with equality whenever
`|x1 - output0| >= rateLimit` (assuming the spec invariant
`rateLimit >= 0`). -/
theorem fixed_mode_bound (s : SlewRateLimiter) (x0 x1 : Int)
    (hA : s.adaptiveSlopeInternal = 0) (hH : s.hysteresisBand = 0)
    (hR : 0 ≤ s.rateLimit) :
    |(processValue (processValue s x0).2 x1).1 - (processValue s x0).1| ≤
      s.rateLimit ∧
    (s.rateLimit ≤ |x1 - (processValue s x0).1| →
      |(processValue (processValue s x0).2 x1).1 - (processValue s x0).1| =
        s.rateLimit) := by
  obtain ⟨hlv, hfc, hce, hrl, hhb, has⟩ := processValue_snd s x0
  have hb := fixed_step_bound (processValue s x0).2 x1 hfc (has.trans hA)
    (hhb.trans hH) (by rw [hrl]; exact hR)
  rw [hlv, hrl] at hb
  exact hb

/-- C4 witness: fresh fixed-mode instance with `rateLimit = 5`, no
hysteresis, inputs 0 then 20: the second output moves by exactly 5. -/
theorem fixed_mode_bound_witness :
    |(processValue (processValue (construct 2 5 0 0) 0).2 20).1 -
        (processValue (construct 2 5 0 0) 0).1| ≤
      (construct 2 5 0 0).rateLimit ∧
    ((construct 2 5 0 0).rateLimit ≤
        |20 - (processValue (construct 2 5 0 0) 0).1| →
      |(processValue (processValue (construct 2 5 0 0) 0).2 20).1 -
          (processValue (construct 2 5 0 0) 0).1| =
        (construct 2 5 0 0).rateLimit) :=
  fixed_mode_bound (construct 2 5 0 0) 0 20 (by decide) (by decide)
    (by decide)

/-- C5: on a non-first call, when the residual gap after the rate-limiting
step is within the hysteresis band, the returned value and the stored
`lastValue` are exactly the input. -/
theorem hysteresis_snap (s : SlewRateLimiter) (x : Int)
    (h0 : s.isFirstCall = false)
    (h : |x - steppedValue s x| ≤ s.hysteresisBand) :
    (processValue s x).1 = x ∧ (processValue s x).2.lastValue = x := by
  simp [processValue, h0, h]

/-- C5 witness: from `lastValue = 0` with `rateLimit = 5` and
`hysteresisBand = 2`, input 6 steps to 5 and then snaps to 6. -/
theorem hysteresis_snap_witness :
    (processValue sInit 6).1 = 6 ∧ (processValue sInit 6).2.lastValue = 6 :=
  hysteresis_snap sInit 6 (by decide) (by decide)

/-- C7: `reset` clears `isFirstCall` back to true (the uninitialized state)
and zeroes `lastValue` and `emaValue`, leaves the four configuration fields
unchanged, and the next `processValue x` returns `x` regardless of prior
history. -/
theorem reset_spec (s : SlewRateLimiter) (x : Int) :
    (reset s).isFirstCall = true ∧
    (reset s).lastValue = 0 ∧
    (reset s).emaValue = 0 ∧
    (reset s).rateLimit = s.rateLimit ∧
    (reset s).hysteresisBand = s.hysteresisBand ∧
    (reset s).currentExponent = s.currentExponent ∧
    (reset s).adaptiveSlopeInternal = s.adaptiveSlopeInternal ∧
    (processValue (reset s) x).1 = x := by
  simp [reset, processValue]

/-- C8: each configuration setter stores into its own field only —
`setRateLimit`, `setHysteresisBand` and `setSmoothingExponent` verbatim,
`setAdaptiveSlope p` as `(p * 128 + 50) / 100` with C truncating division —
and none of them touches `lastValue`, `emaValue`, `isFirstCall` or the other
configuration fields; percentage 0 yields scaled gain 0. -/
theorem setter_frame (s : SlewRateLimiter) (limit band p : Int) (e : Nat) :
    (setRateLimit s limit = { s with rateLimit := limit } ∧
      (setRateLimit s limit).lastValue = s.lastValue ∧
      (setRateLimit s limit).emaValue = s.emaValue ∧
      (setRateLimit s limit).isFirstCall = s.isFirstCall) ∧
    (setHysteresisBand s band = { s with hysteresisBand := band } ∧
      (setHysteresisBand s band).lastValue = s.lastValue ∧
      (setHysteresisBand s band).emaValue = s.emaValue ∧
      (setHysteresisBand s band).isFirstCall = s.isFirstCall) ∧
    (setSmoothingExponent s e = { s with currentExponent := e } ∧
      (setSmoothingExponent s e).lastValue = s.lastValue ∧
      (setSmoothingExponent s e).emaValue = s.emaValue ∧
      (setSmoothingExponent s e).isFirstCall = s.isFirstCall) ∧
    (setAdaptiveSlope s p =
        { s with adaptiveSlopeInternal := Int.tdiv (p * 128 + 50) 100 } ∧
      (setAdaptiveSlope s p).lastValue = s.lastValue ∧
      (setAdaptiveSlope s p).emaValue = s.emaValue ∧
      (setAdaptiveSlope s p).isFirstCall = s.isFirstCall) ∧
    (setAdaptiveSlope s 0).adaptiveSlopeInternal = 0 := by
  have h0 : Int.tdiv 50 100 = 0 := by decide
  simp [setRateLimit, setHysteresisBand, setSmoothingExponent,
    setAdaptiveSlope, h0]

/-- Floor division by 128 (the arithmetic right shift `>> 7`) is monotone
in the dividend. -/
theorem fdiv128_mono {u v : Int} (huv : u ≤ v) :
    Int.fdiv u 128 ≤ Int.fdiv v 128 := by
  rw [Int.fdiv_eq_ediv u (by omega), Int.fdiv_eq_ediv v (by omega)]
  exact Int.ediv_le_ediv (by omega) huv

/-- C6: for a positive adaptive slope percentage `p`, the allowed per-call
change `rateLimit + ((|delta| * adaptiveSlopeInternal) >> 7)` is
non-decreasing in `|delta|`, and doubling the percentage (all else fixed)
does not decrease the allowed change for any given delta. -/
theorem adaptive_monotonicity (s : SlewRateLimiter) (p d1 d2 : Int)
    (hp : 0 < p) (hd : |d1| ≤ |d2|) :
    allowedChangeOf (setAdaptiveSlope s p) d1 ≤
      allowedChangeOf (setAdaptiveSlope s p) d2 ∧
    allowedChangeOf (setAdaptiveSlope s p) d1 ≤
      allowedChangeOf (setAdaptiveSlope s (2 * p)) d1 := by
  have ha1 : 1 ≤ Int.tdiv (p * 128 + 50) 100 := by
    rw [Int.tdiv_eq_ediv (by omega) (by omega)]
    omega
  have ha2 : 1 ≤ Int.tdiv (2 * p * 128 + 50) 100 := by
    rw [Int.tdiv_eq_ediv (by omega) (by omega)]
    omega
  have ha12 : Int.tdiv (p * 128 + 50) 100 ≤
      Int.tdiv (2 * p * 128 + 50) 100 := by
    rw [Int.tdiv_eq_ediv (by omega) (by omega),
      Int.tdiv_eq_ediv (by omega) (by omega)]
    exact Int.ediv_le_ediv (by omega) (by omega)
  simp only [allowedChangeOf, setAdaptiveSlope]
  rw [if_pos (by omega), if_pos (by omega), if_pos (by omega)]
  constructor
  · exact add_le_add_left
      (fdiv128_mono (mul_le_mul_of_nonneg_right hd (by omega))) _
  · exact add_le_add_left
      (fdiv128_mono (mul_le_mul_of_nonneg_left ha12 (abs_nonneg d1))) _

/-- C6 witness: the monotonicity instantiated with the default
configuration, percentage 50, and deltas 3 and 7. -/
theorem adaptive_monotonicity_witness :
    allowedChangeOf (setAdaptiveSlope (construct 2 5 2 0) 50) 3 ≤
      allowedChangeOf (setAdaptiveSlope (construct 2 5 2 0) 50) 7 ∧
    allowedChangeOf (setAdaptiveSlope (construct 2 5 2 0) 50) 3 ≤
      allowedChangeOf (setAdaptiveSlope (construct 2 5 2 0) (2 * 50)) 3 :=
  adaptive_monotonicity (construct 2 5 2 0) 50 3 7 (by decide) (by decide)

/-- C9: the output of a non-first `processValue` call and the resulting
`lastValue` depend only on `lastValue`, `rateLimit`, `hysteresisBand` and
`adaptiveSlopeInternal` — two initialized states agreeing on those four
fields but differing arbitrarily in `emaValue` and `currentExponent`
produce the same output and the same new `lastValue` for every input. -/
theorem ema_noninterference (s t : SlewRateLimiter) (x : Int)
    (hs : s.isFirstCall = false) (ht : t.isFirstCall = false)
    (h1 : s.lastValue = t.lastValue) (h2 : s.rateLimit = t.rateLimit)
    (h3 : s.hysteresisBand = t.hysteresisBand)
    (h4 : s.adaptiveSlopeInternal = t.adaptiveSlopeInternal) :
    (processValue s x).1 = (processValue t x).1 ∧
    (processValue s x).2.lastValue = (processValue t x).2.lastValue := by
  simp [processValue, steppedValue, allowedChangeOf, hs, ht, h1, h2, h3, h4]

/-- States used to instantiate the non-interference theorem: both have
`lastValue = 0`, `rateLimit = 5`, `hysteresisBand = 2`, zero adaptive
slope, but different EMA values and smoothing exponents. -/
def sEmaA : SlewRateLimiter :=
  { lastValue := 0, emaValue := 100, isFirstCall := false,
    currentExponent := 5, rateLimit := 5, hysteresisBand := 2,
    adaptiveSlopeInternal := 0 }

/-- Companion state to `sEmaA` differing only in `emaValue` and
`currentExponent`. -/
def sEmaB : SlewRateLimiter :=
  { lastValue := 0, emaValue := -3, isFirstCall := false,
    currentExponent := 0, rateLimit := 5, hysteresisBand := 2,
    adaptiveSlopeInternal := 0 }

/-- C9 witness: the two concrete states `sEmaA` and `sEmaB` produce the
same output and new `lastValue` on input 20. -/
theorem ema_noninterference_witness :
    (processValue sEmaA 20).1 = (processValue sEmaB 20).1 ∧
    (processValue sEmaA 20).2.lastValue =
      (processValue sEmaB 20).2.lastValue :=
  ema_noninterference sEmaA sEmaB 20 (by decide) (by decide) (by decide)
    (by decide) (by decide) (by decide)

/-- C10: with zero adaptive slope, `rateLimit >= 0` and
`hysteresisBand >= 0`, every non-first call moves the output by at most
`rateLimit + hysteresisBand` — the hysteresis snap can extend a single step
beyond `rateLimit` by at most `hysteresisBand`. -/
theorem snap_step_bound (s : SlewRateLimiter) (x : Int)
    (h0 : s.isFirstCall = false) (hA : s.adaptiveSlopeInternal = 0)
    (hR : 0 ≤ s.rateLimit) (hH : 0 ≤ s.hysteresisBand) :
    |(processValue s x).1 - s.lastValue| ≤
      s.rateLimit + s.hysteresisBand := by
  simp only [processValue, steppedValue, allowedChangeOf, h0, hA,
    Bool.false_eq_true, if_false, ne_eq, not_true_eq_false, ite_false]
  split_ifs <;> simp only [Int.abs_eq_natAbs] at * <;> omega

/-- C10 witness: from `lastValue = 0` with `rateLimit = 5` and
`hysteresisBand = 2`, input 100 moves the output by 5, within the bound 7. -/
theorem snap_step_bound_witness :
    |(processValue sInit 100).1 - sInit.lastValue| ≤
      sInit.rateLimit + sInit.hysteresisBand :=
  snap_step_bound sInit 100 (by decide) (by decide) (by decide) (by decide)
